import Mathlib

/-!
Shallow embedding of the presence subsystem (status store, transition log,
subscription graph, sync) of the ruma homeserver, translated from
src/src/models/presence_status.rs, presence_stream.rs, presence_event.rs,
presence_list.rs and src/src/api/r0/presence.rs.

Database tables are lists of rows; a Postgres transaction is modelled by
returning either a fresh state (commit) or an error (rollback: the caller
keeps the original state).  Clock reads and random event-id generation are
modelled as explicit parameters.  A Rust `.unwrap()` / `.expect(...)` on a
value that may be absent is modelled by a dedicated `panicked` outcome, so
that a process abort is distinguishable from a returned error.
-/

abbrev UserId := String

abbrev EventId := String

abbrev RoomId := String

/-- Presence states, from the external `ruma_events::presence::PresenceState`
enum (spec data model: online / offline / unavailable). -/
inductive PresenceState where
  | online
  | offline
  | unavailable
deriving DecidableEq

/-- `PresenceState::to_string` (serialization used when storing the enum). -/
def PresenceState.toStr : PresenceState → String
  | .online => "online"
  | .offline => "offline"
  | .unavailable => "unavailable"

/-- `str::parse::<PresenceState>`: the fallible decode of a stored presence
string; returns `none` on any string that is not one of the three states. -/
def parsePresenceState : String → Option PresenceState
  | "online" => some PresenceState.online
  | "offline" => some PresenceState.offline
  | "unavailable" => some PresenceState.unavailable
  | _ => none

/-- Modelled from the spec: the error kinds of §7 (the error module is not
under src/).  `badJson` is `ApiError::bad_json` (invalid parameter),
`conflict` is the storage-layer unique-constraint violation surfaced
through `ApiError::from` on a database error. -/
inductive ApiError where
  | unauthorized (msg : String)
  | badJson (msg : Option String)
  | notFound (msg : String)
  | conflict (msg : String)
  | internal (msg : String)
deriving DecidableEq

/-- Outcome of running a handler or model function: a returned value, a
returned error, or a process abort (Rust panic via `.unwrap()` or
`.expect(...)`). -/
inductive RunResult (α : Type) where
  | ok (value : α)
  | err (error : ApiError)
  | panicked (msg : String)
deriving DecidableEq

/-- Row of the `presence_status` table (`PresenceStatus` in
presence_status.rs).  `updated_at` is a `PgTimestamp` holding whole seconds
(see the comment in `PresenceStatus::update`). -/
structure PresenceStatusRow where
  user_id : UserId
  event_id : EventId
  presence : String
  status_msg : Option String
  updated_at : Int
deriving DecidableEq

/-- Row of the `presence_stream` table (`PresenceStreamEvent` in
presence_stream.rs). -/
structure PresenceStreamRow where
  ordering : Int
  event_id : EventId
  user_id : UserId
  presence : String
  created_at : Int
deriving DecidableEq

/-- Row of the `presence_events` table (`PresenceStreamEvent` in
presence_event.rs, the variant with denormalized profile data). -/
structure PresenceEventsRow where
  ordering : Int
  event_id : EventId
  user_id : UserId
  presence : String
  avatar_url : Option String
  displayname : Option String
  created_at : Int
deriving DecidableEq

/-- Row of the `presence_list` table (`PresenceList` in presence_list.rs):
one directed subscription edge (observer, observed). -/
structure PresenceListRow where
  user_id : UserId
  observed_user_id : UserId
deriving DecidableEq

/-- Modelled from the spec: a room-membership row with a membership state
string ("join" for a joined room); models/room_membership.rs is not under
src/, only its callers are. -/
structure RoomMembershipRow where
  room_id : RoomId
  user_id : UserId
  membership : String
deriving DecidableEq

/-- Modelled from the spec: a profile row (avatar / display name) used for
enrichment; models/profile.rs is not under src/. -/
structure Profile where
  id : UserId
  avatar_url : Option String
  displayname : Option String
deriving DecidableEq

/-- The database state: every table the presence subsystem touches, plus the
externally owned `users` (user existence) and room-membership tables. -/
structure DbState where
  users : List UserId
  presence_status : List PresenceStatusRow
  presence_stream : List PresenceStreamRow
  presence_events : List PresenceEventsRow
  presence_list : List PresenceListRow
  room_memberships : List RoomMembershipRow
  profiles : List Profile
deriving DecidableEq

/-- `PresenceStatus::find_by_uid`: point lookup by primary key; `none` means
no status ever recorded (`DieselError::NotFound` mapped to `Ok(None)`). -/
def PresenceStatus.find_by_uid (db : DbState) (u : UserId) : Option PresenceStatusRow :=
  db.presence_status.find? (fun r => decide (r.user_id = u))

/-- `PresenceStatus::update`: mutate the existing row in place (new
presence, status message, event id, `updated_at = now` in seconds). -/
def PresenceStatus.updateRow (p : PresenceState) (msg : Option String) (eid : EventId) (now : Int) (r : PresenceStatusRow) : PresenceStatusRow :=
  { r with presence := p.toStr, status_msg := msg, event_id := eid, updated_at := now }

/-- `PresenceStatus::create`: insert a fresh status row.  The `updated_at`
column is filled by the database default clock, modelled as `now`. -/
def PresenceStatus.createRow (u : UserId) (p : PresenceState) (msg : Option String) (eid : EventId) (now : Int) : PresenceStatusRow :=
  { user_id := u, event_id := eid, presence := p.toStr, status_msg := msg, updated_at := now }

/-- `PresenceStatus::upsert` (presence_status.rs lines 57 to 74): inside one
transaction, read the existing status row and either update it in place or
insert a fresh one.  The event id generated by `EventId::new(domain)` is
passed in as `eid` (its randomness is external), the clock as `now`.
Note: this function writes only the `presence_status` table; it never calls
`PresenceStreamEvent::insert`. -/
def PresenceStatus.upsert (db : DbState) (u : UserId) (p : PresenceState) (msg : Option String) (eid : EventId) (now : Int) : Except ApiError DbState :=
  match PresenceStatus.find_by_uid db u with
  | some _ =>
      Except.ok { db with presence_status :=
        db.presence_status.map (fun r =>
          if r.user_id = u then PresenceStatus.updateRow p msg eid now r else r) }
  | none =>
      Except.ok { db with presence_status :=
        PresenceStatus.createRow u p msg eid now :: db.presence_status }

/-- `PresenceStatus::update_by_uid_and_status` (presence_status.rs lines 119
to 143): re-upsert the stored state; the stored presence string is decoded
with `.parse().expect(...)`, which aborts the process on a corrupted row. -/
def PresenceStatus.update_by_uid_and_status (db : DbState) (u : UserId) (eid : EventId) (now : Int) : RunResult DbState :=
  match PresenceStatus.find_by_uid db u with
  | some status =>
      match parsePresenceState status.presence with
      | none => RunResult.panicked "Database insert should ensure a PresenceState"
      | some ps =>
          match PresenceStatus.upsert db u ps status.status_msg eid now with
          | Except.ok db2 => RunResult.ok db2
          | Except.error e => RunResult.err e
  | none =>
      match PresenceStatus.upsert db u PresenceState.unavailable none eid now with
      | Except.ok db2 => RunResult.ok db2
      | Except.error e => RunResult.err e

/-- `PresenceStreamEvent::insert` (presence_stream.rs lines 45 to 56):
append a row to the `presence_stream` table; the serial `ordering` and the
`created_at` default are allocated by the database, modelled as explicit
parameters.  No function under src/ ever calls it. -/
def PresenceStreamEvent.insert (db : DbState) (eid : EventId) (u : UserId) (presence : String) (ordering : Int) (created_at : Int) : Except ApiError DbState :=
  Except.ok { db with presence_stream :=
    db.presence_stream ++ [{ ordering := ordering, event_id := eid, user_id := u, presence := presence, created_at := created_at }] }

/-- Modelled from the spec: `User::find_missing_users` implements
UserExistence.Filter (userIds -> the ids not found); models/user.rs is not
under src/. -/
def User.find_missing_users (db : DbState) (users : List UserId) : List UserId :=
  users.filter (fun u => decide (u ∉ db.users))

/-- Modelled from the spec: room ids in which the user has the given
membership state; models/room_membership.rs is not under src/. -/
def RoomMembership.find_room_ids_by_uid_and_state (db : DbState) (u : UserId) (state : String) : List RoomId :=
  (db.room_memberships.filter (fun m => decide (m.user_id = u) && decide (m.membership = state))).map (fun m => m.room_id)

/-- Modelled from the spec: RoomMembershipCheck.SharesRoom — among the
given rooms, those the user has joined; models/room_membership.rs is not
under src/. -/
def RoomMembership.find_shared_rooms_by_rooms_and_uid (db : DbState) (rooms : List RoomId) (u : UserId) : List RoomId :=
  (db.room_memberships.filter (fun m => decide (m.user_id = u) && decide (m.membership = "join") && decide (m.room_id ∈ rooms))).map (fun m => m.room_id)

/-- The `format!("Unknown users in {} list: {}", ...)` messages of
`PresenceList::update`. -/
def unknownUsersMessage (which : String) (missing : List UserId) : String :=
  "Unknown users in " ++ which ++ " list: " ++ String.intercalate ", " missing

/-- The unauthorized message of `PresenceList::update` (source line 81,
with its typo kept verbatim). -/
def unauthorizedInviteMessage (observed : UserId) : String :=
  "You are not authorized to get the presence status for th given user_id: " ++ observed ++ "."

/-- The invite loop of `PresenceList::update` (presence_list.rs lines 71 to
90): for each invitee other than the observer, require a shared joined
room, failing with `ApiError::unauthorized` otherwise; collect one edge per
invitee. -/
def PresenceList.collectInvites (db : DbState) (user_id : UserId) (room_ids : List RoomId) : List UserId → Except ApiError (List PresenceListRow)
  | [] => Except.ok []
  | observed :: rest =>
      if observed ≠ user_id ∧ RoomMembership.find_shared_rooms_by_rooms_and_uid db room_ids observed = [] then
        Except.error (ApiError.unauthorized (unauthorizedInviteMessage observed))
      else
        match PresenceList.collectInvites db user_id room_ids rest with
        | Except.ok tail => Except.ok ({ user_id := user_id, observed_user_id := observed } :: tail)
        | Except.error e => Except.error e

/-- The batch `insert(&invites).into(presence_list::table)` of
`PresenceList::update` (lines 91 to 94).  Modelled from the spec: the
`presence_list` table carries a UNIQUE (user_id, observed_user_id) pair
constraint (spec §3, SubscriptionEdge "unique pair"; the migration defining
it is not under src/), so a batch that collides with an existing edge, or
repeats a pair within itself, fails with a storage-layer error and inserts
nothing. -/
def PresenceList.insertEdges (db : DbState) (rows : List PresenceListRow) : Except ApiError DbState :=
  if (rows.any (fun r => decide (r ∈ db.presence_list))) ∨ ¬ rows.Nodup then
    Except.error (ApiError.conflict "duplicate key value violates unique constraint on presence_list")
  else
    Except.ok { db with presence_list := db.presence_list ++ rows }

/-- `PresenceList::update` (presence_list.rs lines 41 to 121): one
transaction that validates the invite list against user existence, checks
shared rooms for each foreign invitee, inserts the invite edges, validates
the drop list, and deletes the dropped edges.  An error return models the
transaction rollback: the caller keeps the original state. -/
def PresenceList.update (db : DbState) (user_id : UserId) (invite : List UserId) (drop : List UserId) : Except ApiError DbState :=
  if User.find_missing_users db invite ≠ [] then
    Except.error (ApiError.badJson (some (unknownUsersMessage "invite" (User.find_missing_users db invite))))
  else
    match PresenceList.collectInvites db user_id (RoomMembership.find_room_ids_by_uid_and_state db user_id "join") invite with
    | Except.error e => Except.error e
    | Except.ok invites =>
      match PresenceList.insertEdges db invites with
      | Except.error e => Except.error e
      | Except.ok db2 =>
        if User.find_missing_users db drop ≠ [] then
          Except.error (ApiError.badJson (some (unknownUsersMessage "drop" (User.find_missing_users db drop))))
        else
          Except.ok { db2 with presence_list :=
            db2.presence_list.filter (fun e =>
              !(decide (e.user_id = user_id) && decide (e.observed_user_id ∈ drop))) }

/-- The state the caller observes after `PresenceList::update`: the new
state on commit, the original state on rollback (spec §5: partial
invite/drop application must not be observable). -/
def PresenceList.updateApplied (db : DbState) (user_id : UserId) (invite : List UserId) (drop : List UserId) : DbState :=
  match PresenceList.update db user_id invite drop with
  | Except.ok db2 => db2
  | Except.error _ => db

/-- `PresenceList::find_observed_users` (presence_list.rs lines 124 to
132). -/
def PresenceList.find_observed_users (db : DbState) (user_id : UserId) : List UserId :=
  (db.presence_list.filter (fun e => decide (e.user_id = user_id))).map (fun e => e.observed_user_id)

/-- `PresenceStatus::get_users` (presence_status.rs lines 161 to 183):
status rows of the given users, restricted to `updated_at > since` when a
cursor is supplied. -/
def PresenceStatus.get_users (db : DbState) (users : List UserId) (since : Option Int) : List PresenceStatusRow :=
  match since with
  | some s => db.presence_status.filter (fun r => decide (r.user_id ∈ users) && decide (r.updated_at > s))
  | none => db.presence_status.filter (fun r => decide (r.user_id ∈ users))

/-- Modelled from the spec: `Profile::get_profiles` implements
ProfileLookup.BatchGet; models/profile.rs is not under src/. -/
def Profile.get_profiles (db : DbState) (users : List UserId) : List Profile :=
  db.profiles.filter (fun p => decide (p.id ∈ users))

/-- The Rust cast `as u64` applied to an `i64` value: two-complement
reinterpretation, i.e. the value modulo 2 ^ 64. -/
def i64AsU64 (v : Int) : Nat := (v % (2 ^ 64 : Int)).toNat

/-- One `PresenceEvent` content record as assembled by
`PresenceList::find_events_by_uid` (presence_list.rs lines 169 to 180). -/
structure PresenceEventContent where
  avatar_url : Option String
  currently_active : Bool
  displayname : Option String
  last_active_ago : Option Nat
  presence : PresenceState
  user_id : UserId
deriving DecidableEq

/-- A client-facing presence event (`ruma_events::presence::PresenceEvent`,
event type always `m.presence`). -/
structure PresenceEvent where
  content : PresenceEventContent
  event_id : EventId
deriving DecidableEq

/-- The event construction of the loop body of
`PresenceList::find_events_by_uid` (presence_list.rs lines 150 to 183):
`last_active_ago` is the i64 millisecond count of the Duration
`last_update - now`, cast with `as u64`. -/
def PresenceList.mkEvent (profiles : List Profile) (now : Int) (st : PresenceStatusRow) (ps : PresenceState) : PresenceEvent :=
  let last_active_ago : Int := (st.updated_at - now) * 1000
  let profile := (profiles.filter (fun p => decide (p.id = st.user_id))).head?
  { content := {
      avatar_url := profile.bind (fun p => p.avatar_url)
      currently_active := decide (PresenceState.online = ps)
      displayname := profile.bind (fun p => p.displayname)
      last_active_ago := some (i64AsU64 last_active_ago)
      presence := ps
      user_id := st.user_id }
    event_id := st.event_id }

/-- The accumulation loop of `PresenceList::find_events_by_uid`: walk the
status rows, tracking `max_ordering` (seeded with -1, updated with the
`updated_at` seconds of each row before the presence string is decoded);
the decode uses `.parse().unwrap()`, which aborts on a corrupted row. -/
def PresenceList.buildEvents (profiles : List Profile) (now : Int) : List PresenceStatusRow → Int → RunResult (Int × List PresenceEvent)
  | [], maxOrd => RunResult.ok (maxOrd, [])
  | st :: rest, maxOrd =>
      let maxOrd2 := max st.updated_at maxOrd
      match parsePresenceState st.presence with
      | none => RunResult.panicked "called Option.unwrap on a None value"
      | some ps =>
          match PresenceList.buildEvents profiles now rest maxOrd2 with
          | RunResult.ok (m, evs) => RunResult.ok (m, PresenceList.mkEvent profiles now st ps :: evs)
          | r => r

/-- `PresenceList::find_events_by_uid` (presence_list.rs lines 135 to 186):
the sync read.  Looks up the observed users, fetches their status rows
(restricted to `updated_at > since` when a cursor is supplied), fetches
profiles, and folds the rows into events together with the maximal
`updated_at` value (the returned cursor), seeded with -1. -/
def PresenceList.find_events_by_uid (db : DbState) (user_id : UserId) (since : Option Int) (now : Int) : RunResult (Int × List PresenceEvent) :=
  let observed := PresenceList.find_observed_users db user_id
  let statuses := PresenceStatus.get_users db observed since
  let profiles := Profile.get_profiles db observed
  PresenceList.buildEvents profiles now statuses (-1)

/-- The set of `presence_events` rows visible to the inner aggregation
subquery of `PresenceStreamEvent::find_events_by_uid` (presence_event.rs
lines 98 to 113): rows of observed users, restricted to `ordering > since`
when a cursor is supplied. -/
def PresenceStreamEvent.qualifying (db : DbState) (user_id : UserId) (since : Option Int) : List PresenceEventsRow :=
  let users := PresenceList.find_observed_users db user_id
  match since with
  | some s => db.presence_events.filter (fun e => decide (e.user_id ∈ users) && decide (e.ordering > s))
  | none => db.presence_events.filter (fun e => decide (e.user_id ∈ users))

/-- Maximum of a list of integers (the SQL `max` aggregate): `none` on an
empty group. -/
def listMaxInt : List Int → Option Int
  | [] => none
  | x :: xs =>
      match listMaxInt xs with
      | none => some x
      | some m => some (max x m)

/-- The `GROUP BY user_id ... SELECT max(ordering)` aggregation of
`PresenceStreamEvent::find_events_by_uid`: one maximal ordering per user
that has at least one qualifying row. -/
def PresenceStreamEvent.groupMaxOrderings (rows : List PresenceEventsRow) : List Int :=
  ((rows.map (fun e => e.user_id)).dedup).filterMap (fun uid =>
    listMaxInt ((rows.filter (fun e => decide (e.user_id = uid))).map (fun e => e.ordering)))

/-- `PresenceStreamEvent::find_events_by_uid` (presence_event.rs lines 89 to
120): the latest-per-user query against the `presence_events` table — the
outer query returns every row whose `ordering` is in the set of per-user
maxima computed by the inner grouped subquery. -/
def PresenceStreamEvent.find_events_by_uid (db : DbState) (user_id : UserId) (since : Option Int) : List PresenceEventsRow :=
  let ordering := PresenceStreamEvent.groupMaxOrderings (PresenceStreamEvent.qualifying db user_id since)
  db.presence_events.filter (fun e => decide (e.ordering ∈ ordering))

/-- Modelled from the spec: `PresenceStatus::calculate_time_difference` is
called by the GET status handler (api/r0/presence.rs line 105) but its
definition is not under src/; per §4.1, lastActiveAgo = now - updated_at in
integer milliseconds, zero when the two are equal, failing explicitly
(never clamping) when now < updated_at. -/
def PresenceStatus.calculate_time_difference (updated_at now : Int) : Except ApiError Nat :=
  if now < updated_at then
    Except.error (ApiError.internal "Presence timestamp is in the future")
  else
    Except.ok (((now - updated_at) * 1000).toNat)

/-- Response body of GET /presence/:user_id/status (api/r0/presence.rs
lines 75 to 86). -/
structure GetPresenceStatusResponse where
  status_msg : Option String
  currently_active : Bool
  last_active_ago : Nat
  presence : PresenceState
deriving DecidableEq

/-- `GetPresenceStatus::handle` (api/r0/presence.rs lines 88 to 116): point
status read; absent row is NotFound, the stored presence string is decoded
with `.parse().expect(...)`, which aborts the process on a corrupted row. -/
def GetPresenceStatus.handle (db : DbState) (user_id : UserId) (now : Int) : RunResult GetPresenceStatusResponse :=
  match PresenceStatus.find_by_uid db user_id with
  | none => RunResult.err (ApiError.notFound "The given user_id does not correspond to an presence status")
  | some status =>
      match parsePresenceState status.presence with
      | none => RunResult.panicked "Database insert should ensure a PresenceState"
      | some ps =>
          match PresenceStatus.calculate_time_difference status.updated_at now with
          | Except.error e => RunResult.err e
          | Except.ok ago =>
              RunResult.ok { status_msg := status.status_msg
                             currently_active := decide (PresenceState.online = ps)
                             last_active_ago := ago
                             presence := ps }

/-- `GetPresenceList::handle` (api/r0/presence.rs lines 171 to 186): reads
the user id from the path, runs the sync read for it, and returns the
events.  Faithful to the source: although the middleware chain includes
AccessTokenAuth, the handler never compares the path user id with the
authenticated user, so the authenticated user is unused. -/
def GetPresenceList.handle (db : DbState) (user_id : UserId) (_auth_user : UserId) (now : Int) : RunResult (List PresenceEvent) :=
  match PresenceList.find_events_by_uid db user_id none now with
  | RunResult.ok (_, events) => RunResult.ok events
  | RunResult.err e => RunResult.err e
  | RunResult.panicked m => RunResult.panicked m

/-- Modelled from the spec: the timeout-aware StalenessProjection variant
(§4.1) — no src/ function implements it; when the stored presence is
online and lastActiveAgo (milliseconds) exceeds timeoutMs, the effective
presence reported to clients downgrades to unavailable; otherwise the
stored value is reported.  Pure derivation, never persisted. -/
def effectivePresence (stored : PresenceState) (lastActiveAgo timeoutMs : Int) : PresenceState :=
  if stored = PresenceState.online ∧ lastActiveAgo > timeoutMs then
    PresenceState.unavailable
  else
    stored

/-- Modelled from the spec: a timeout-aware status read — look up the status
row, decode its presence, and apply the staleness projection with
lastActiveAgo = (now - updated_at) seconds times 1000.  The stored row is
not modified (the projection is computed fresh on every read). -/
def effectiveStatusRead (db : DbState) (u : UserId) (now timeoutMs : Int) : Option PresenceState :=
  (PresenceStatus.find_by_uid db u).bind (fun st =>
    (parsePresenceState st.presence).map (fun ps =>
      effectivePresence ps ((now - st.updated_at) * 1000) timeoutMs))

/-- Equality of call results is decidable (used to evaluate the model at
concrete inputs). -/
def exceptDecEq {ε α : Type} [DecidableEq ε] [DecidableEq α] : DecidableEq (Except ε α)
  | Except.ok x, Except.ok y =>
      match decEq x y with
      | isTrue h => isTrue (by rw [h])
      | isFalse h => isFalse (by intro hc; cases hc; exact h rfl)
  | Except.ok _, Except.error _ => isFalse (by intro h; cases h)
  | Except.error _, Except.ok _ => isFalse (by intro h; cases h)
  | Except.error e, Except.error f =>
      match decEq e f with
      | isTrue h => isTrue (by rw [h])
      | isFalse h => isFalse (by intro hc; cases hc; exact h rfl)

instance {ε α : Type} [DecidableEq ε] [DecidableEq α] : DecidableEq (Except ε α) :=
  exceptDecEq

/-- A one-user state with no presence data yet. -/
def dbAlice : DbState :=
  { users := ["@alice:ruma.test"]
    presence_status := []
    presence_stream := []
    presence_events := []
    presence_list := []
    room_memberships := []
    profiles := [] }

/-- The state `PresenceStatus.upsert` produces from `dbAlice`. -/
def dbAliceAfter : DbState :=
  { dbAlice with presence_status :=
      [PresenceStatus.createRow "@alice:ruma.test" PresenceState.online none "$e1:ruma.test" 5] }

/-- A state with a corrupted stored presence value for alice ("everywhere"
is not a presence state) and bob subscribed to alice. -/
def dbCorrupt : DbState :=
  { users := ["@alice:ruma.test", "@bob:ruma.test"]
    presence_status := [{ user_id := "@alice:ruma.test", event_id := "$e1:ruma.test", presence := "everywhere", status_msg := none, updated_at := 3 }]
    presence_stream := []
    presence_events := []
    presence_list := [{ user_id := "@bob:ruma.test", observed_user_id := "@alice:ruma.test" }]
    room_memberships := []
    profiles := [] }

/-- A state where alice observes bob and bob is online since second 3. -/
def dbList : DbState :=
  { users := ["@alice:ruma.test", "@bob:ruma.test", "@oscar:ruma.test"]
    presence_status := [{ user_id := "@bob:ruma.test", event_id := "$eb:ruma.test", presence := "online", status_msg := none, updated_at := 3 }]
    presence_stream := []
    presence_events := []
    presence_list := [{ user_id := "@alice:ruma.test", observed_user_id := "@bob:ruma.test" }]
    room_memberships := []
    profiles := [] }

/-- A state where alice observes bob and bob is online since second 0 (epoch). -/
def dbAgo : DbState :=
  { users := ["@alice:ruma.test", "@bob:ruma.test"]
    presence_status := [{ user_id := "@bob:ruma.test", event_id := "$eb:ruma.test", presence := "online", status_msg := none, updated_at := 0 }]
    presence_stream := []
    presence_events := []
    presence_list := [{ user_id := "@alice:ruma.test", observed_user_id := "@bob:ruma.test" }]
    room_memberships := []
    profiles := [] }

/-- A state where alice already holds a self-subscription edge. -/
def dbSelfEdge : DbState :=
  { users := ["@alice:ruma.test"]
    presence_status := []
    presence_stream := []
    presence_events := []
    presence_list := [{ user_id := "@alice:ruma.test", observed_user_id := "@alice:ruma.test" }]
    room_memberships := []
    profiles := [] }

/-- A state with a two-entry transition log for bob, observed by alice. -/
def dbEvents : DbState :=
  { users := ["@alice:ruma.test", "@bob:ruma.test"]
    presence_status := []
    presence_stream := []
    presence_events :=
      [{ ordering := 1, event_id := "$p1:ruma.test", user_id := "@bob:ruma.test", presence := "online", avatar_url := none, displayname := none, created_at := 1 },
       { ordering := 2, event_id := "$p2:ruma.test", user_id := "@bob:ruma.test", presence := "unavailable", avatar_url := none, displayname := none, created_at := 2 }]
    presence_list := [{ user_id := "@alice:ruma.test", observed_user_id := "@bob:ruma.test" }]
    room_memberships := []
    profiles := [] }

/-! C1: status-row write paired with a transition-log write. -/

/-- C1 (counterexample): a successful call to PresenceStatus::upsert on a
fresh store writes zero transition-log entries, not exactly one — the
status-row write is unpaired (`PresenceStreamEvent::insert` is never
called), so there is also no most-recent log entry whose event id the
status row could match. -/
theorem upsert_writes_no_log_entry_cex :
    PresenceStatus.upsert dbAlice "@alice:ruma.test" PresenceState.online none "$e1:ruma.test" 5 = Except.ok dbAliceAfter ∧
    dbAliceAfter.presence_stream.length = 0 ∧
    dbAliceAfter.presence_events.length = 0 ∧
    (PresenceStatus.find_by_uid dbAliceAfter "@alice:ruma.test").isSome = true := by
  refine ⟨rfl, ?_, ?_, ?_⟩ <;> decide

/-- Point lookup distributes over the pointwise row update used by
`PresenceStatus.upsert`: the found row is the updated image of the row the
lookup found before. -/
theorem find?_map_row_update (rows : List PresenceStatusRow) (u : UserId) (upd : PresenceStatusRow → PresenceStatusRow)
    (hupd : ∀ r, (upd r).user_id = r.user_id) :
    (rows.map (fun r => if r.user_id = u then upd r else r)).find? (fun r => decide (r.user_id = u))
      = (rows.find? (fun r => decide (r.user_id = u))).map upd := by
  induction rows with
  | nil => rfl
  | cons r rest ih =>
      by_cases hr : r.user_id = u
      · simp [List.find?_cons, hr, hupd]
      · simp [List.find?_cons, hr, hupd, ih]

/-- C1 (amended): every successful PresenceStatus::upsert call writes only
the status table — the transition-log tables (presence_stream and
presence_events) and the subscription graph are left unchanged (no log
entry is ever written), and afterwards the status row of the user carries
the event id of the call. -/
theorem upsert_touches_only_status (db : DbState) (u : UserId) (p : PresenceState) (msg : Option String) (eid : EventId) (now : Int) (db2 : DbState)
    (h : PresenceStatus.upsert db u p msg eid now = Except.ok db2) :
    db2.presence_stream = db.presence_stream ∧
    db2.presence_events = db.presence_events ∧
    db2.presence_list = db.presence_list ∧
    (PresenceStatus.find_by_uid db2 u).map (fun r => r.event_id) = some eid := by
  unfold PresenceStatus.upsert at h
  cases hf : PresenceStatus.find_by_uid db u with
  | some r =>
      rw [hf] at h
      cases h
      refine ⟨rfl, rfl, rfl, ?_⟩
      have hfind := find?_map_row_update db.presence_status u
        (PresenceStatus.updateRow p msg eid now) (fun r => rfl)
      unfold PresenceStatus.find_by_uid at hf ⊢
      simp only [hfind, hf, Option.map_some, Option.map_map]
      rfl
  | none =>
      rw [hf] at h
      cases h
      refine ⟨rfl, rfl, rfl, ?_⟩
      unfold PresenceStatus.find_by_uid
      simp [PresenceStatus.createRow, List.find?_cons]

/-- Witness for the amended C1 at a concrete input. -/
theorem upsert_touches_only_status_witness :
    dbAliceAfter.presence_stream = dbAlice.presence_stream ∧
    dbAliceAfter.presence_events = dbAlice.presence_events ∧
    dbAliceAfter.presence_list = dbAlice.presence_list ∧
    (PresenceStatus.find_by_uid dbAliceAfter "@alice:ruma.test").map (fun r => r.event_id) = some "$e1:ruma.test" :=
  upsert_touches_only_status dbAlice "@alice:ruma.test" PresenceState.online none "$e1:ruma.test" 5 dbAliceAfter rfl

/-! C6: corrupted stored presence values. -/

/-- C6 (code bug): on a stored presence value that does not parse, every
reading operation — the GET status handler, the sync read, and the
status-based re-upsert — aborts the process (Rust panic through
`.expect(...)` / `.unwrap()`) instead of returning a DataCorruption or
Internal error. -/
theorem corrupted_presence_panics :
    GetPresenceStatus.handle dbCorrupt "@alice:ruma.test" 10
      = RunResult.panicked "Database insert should ensure a PresenceState" ∧
    PresenceList.find_events_by_uid dbCorrupt "@bob:ruma.test" none 10
      = RunResult.panicked "called Option.unwrap on a None value" ∧
    PresenceStatus.update_by_uid_and_status dbCorrupt "@alice:ruma.test" "$e2:ruma.test" 10
      = RunResult.panicked "Database insert should ensure a PresenceState" :=
  ⟨rfl, rfl, rfl⟩

/-! C7: authorization on GET /presence/list/:user_id. -/

/-- C7 (code bug): the GET presence list handler serves the presence events
of the path user id no matter who the authenticated caller is — with
caller oscar and path user alice it returns 200 with the event of the
observed user bob instead of rejecting with Unauthorized; the result does
not depend on the authenticated user at all. -/
theorem get_presence_list_ignores_auth_mismatch :
    GetPresenceList.handle dbList "@alice:ruma.test" "@oscar:ruma.test" 10
      = RunResult.ok [{ content := { avatar_url := none
                                     currently_active := true
                                     displayname := none
                                     last_active_ago := some 18446744073709544616
                                     presence := PresenceState.online
                                     user_id := "@bob:ruma.test" }
                        event_id := "$eb:ruma.test" }] ∧
    (∀ a b : UserId, GetPresenceList.handle dbList "@alice:ruma.test" a 10
      = GetPresenceList.handle dbList "@alice:ruma.test" b 10) :=
  ⟨rfl, fun _ _ => rfl⟩

/-! C5: last_active_ago of a status read or sync. -/

/-- C5 (code bug): the sync read computes the Duration
`updated_at - now` (backwards) and casts its negative millisecond count to
u64 — for a row updated at second 0 read at second 5 the reported
last_active_ago is 2 ^ 64 - 5000 milliseconds, not the 5000 the spec
requires, and no explicit failure occurs in the reversed case either. -/
theorem sync_last_active_ago_wraps :
    PresenceList.find_events_by_uid dbAgo "@alice:ruma.test" none 5
      = RunResult.ok (0, [{ content := { avatar_url := none
                                         currently_active := true
                                         displayname := none
                                         last_active_ago := some 18446744073709546616
                                         presence := PresenceState.online
                                         user_id := "@bob:ruma.test" }
                            event_id := "$eb:ruma.test" }]) ∧
    (18446744073709546616 : Nat) ≠ 5 * 1000 :=
  ⟨rfl, by decide⟩

/-! C4: timeout-aware staleness downgrade. -/

/-- C4: in the timeout-aware variant, a stored online row whose age exceeds
the timeout is reported to clients as unavailable, while the stored row is
unchanged and still carries the literal value online. -/
theorem staleness_downgrades_to_unavailable (db : DbState) (u : UserId) (st : PresenceStatusRow) (now timeoutMs : Int)
    (hfind : PresenceStatus.find_by_uid db u = some st)
    (hpres : st.presence = "online")
    (hstale : (now - st.updated_at) * 1000 > timeoutMs) :
    effectiveStatusRead db u now timeoutMs = some PresenceState.unavailable ∧
    PresenceStatus.find_by_uid db u = some st ∧
    st.presence = "online" := by
  refine ⟨?_, hfind, hpres⟩
  unfold effectiveStatusRead
  rw [hfind]
  simp only [Option.some_bind, hpres, parsePresenceState]
  unfold effectivePresence
  simp [hstale]

/-- Witness for C4: bob is stored online at second 0, read at second 10
with a 4000 millisecond timeout. -/
theorem staleness_downgrades_to_unavailable_witness :
    effectiveStatusRead dbAgo "@bob:ruma.test" 10 4000 = some PresenceState.unavailable ∧
    PresenceStatus.find_by_uid dbAgo "@bob:ruma.test" = some { user_id := "@bob:ruma.test", event_id := "$eb:ruma.test", presence := "online", status_msg := none, updated_at := 0 } ∧
    ({ user_id := "@bob:ruma.test", event_id := "$eb:ruma.test", presence := "online", status_msg := none, updated_at := 0 } : PresenceStatusRow).presence = "online" :=
  staleness_downgrades_to_unavailable dbAgo "@bob:ruma.test" _ 10 4000 rfl rfl (by decide)

/-! C3: atomicity of invite/drop validation in PresenceList::update. -/

/-- Transaction rollback: whenever `PresenceList::update` returns an error,
the state the caller observes is the original one. -/
theorem updateApplied_eq_of_error (db : DbState) (u : UserId) (invite drop : List UserId) (e : ApiError)
    (h : PresenceList.update db u invite drop = Except.error e) :
    PresenceList.updateApplied db u invite drop = db := by
  unfold PresenceList.updateApplied
  rw [h]

/-- C3: if the invite list names an unknown user, the whole call fails with
the invalid-parameter error naming exactly the unknown identifiers and the
graph is unchanged; if the drop list names an unknown user the whole call
also fails with the graph unchanged (and when the invite half succeeded,
the error is the invalid-parameter error naming the unknown drop
identifiers) — no edge of the same call survives. -/
theorem update_unknown_users_atomic (db : DbState) (u : UserId) (invite drop : List UserId) :
    (User.find_missing_users db invite ≠ [] →
      PresenceList.update db u invite drop
        = Except.error (ApiError.badJson (some (unknownUsersMessage "invite" (User.find_missing_users db invite)))) ∧
      PresenceList.updateApplied db u invite drop = db) ∧
    (User.find_missing_users db drop ≠ [] →
      (∃ e, PresenceList.update db u invite drop = Except.error e) ∧
      PresenceList.updateApplied db u invite drop = db) ∧
    (∀ invites db2,
      User.find_missing_users db invite = [] →
      PresenceList.collectInvites db u (RoomMembership.find_room_ids_by_uid_and_state db u "join") invite = Except.ok invites →
      PresenceList.insertEdges db invites = Except.ok db2 →
      User.find_missing_users db drop ≠ [] →
      PresenceList.update db u invite drop
        = Except.error (ApiError.badJson (some (unknownUsersMessage "drop" (User.find_missing_users db drop))))) := by
  refine ⟨?_, ?_, ?_⟩
  · intro hmiss
    have hupd : PresenceList.update db u invite drop
        = Except.error (ApiError.badJson (some (unknownUsersMessage "invite" (User.find_missing_users db invite)))) := by
      unfold PresenceList.update
      rw [if_pos hmiss]
    exact ⟨hupd, updateApplied_eq_of_error db u invite drop _ hupd⟩
  · intro hdrop
    have hnotok : ∀ db2, PresenceList.update db u invite drop ≠ Except.ok db2 := by
      intro db2 hok
      unfold PresenceList.update at hok
      by_cases hmiss : User.find_missing_users db invite ≠ []
      · rw [if_pos hmiss] at hok
        cases hok
      · rw [if_neg hmiss] at hok
        cases hc : PresenceList.collectInvites db u (RoomMembership.find_room_ids_by_uid_and_state db u "join") invite with
        | error e =>
            simp only [hc] at hok
            cases hok
        | ok invites =>
            simp only [hc] at hok
            cases hi : PresenceList.insertEdges db invites with
            | error e =>
                simp only [hi] at hok
                cases hok
            | ok dbm =>
                simp only [hi, if_pos hdrop] at hok
                cases hok
    obtain ⟨e, he⟩ : ∃ e, PresenceList.update db u invite drop = Except.error e := by
      cases hu : PresenceList.update db u invite drop with
      | ok db2 => exact absurd hu (hnotok db2)
      | error e => exact ⟨e, rfl⟩
    exact ⟨⟨e, he⟩, updateApplied_eq_of_error db u invite drop e he⟩
  · intro invites db2 hmiss hc hi hdrop
    unfold PresenceList.update
    rw [if_neg (fun h => h hmiss)]
    simp only [hc, hi, if_pos hdrop]

/-- Witness for C3: inviting the unknown user ghost fails with the
invalid-parameter error and leaves the empty graph empty. -/
theorem update_unknown_users_atomic_witness :
    PresenceList.update dbAlice "@alice:ruma.test" ["@ghost:ruma.test"] []
      = Except.error (ApiError.badJson (some (unknownUsersMessage "invite" (User.find_missing_users dbAlice ["@ghost:ruma.test"])))) ∧
    PresenceList.updateApplied dbAlice "@alice:ruma.test" ["@ghost:ruma.test"] [] = dbAlice :=
  (update_unknown_users_atomic dbAlice "@alice:ruma.test" ["@ghost:ruma.test"] []).1 (by decide)

/-! C9: shared-room authorization inside PresenceList::update. -/

/-- If some invitee other than the observer shares no joined room with the
observer, the invite loop fails with the unauthorized error for such an
invitee. -/
theorem collectInvites_error_of_unauthorized (db : DbState) (u : UserId) (rooms : List RoomId) (lst : List UserId)
    (h : ∃ v ∈ lst, v ≠ u ∧ RoomMembership.find_shared_rooms_by_rooms_and_uid db rooms v = []) :
    ∃ w, PresenceList.collectInvites db u rooms lst
        = Except.error (ApiError.unauthorized (unauthorizedInviteMessage w)) ∧
      w ∈ lst ∧ w ≠ u ∧ RoomMembership.find_shared_rooms_by_rooms_and_uid db rooms w = [] := by
  induction lst with
  | nil => simp at h
  | cons observed rest ih =>
      by_cases hcond : observed ≠ u ∧ RoomMembership.find_shared_rooms_by_rooms_and_uid db rooms observed = []
      · refine ⟨observed, ?_, List.mem_cons_self _ _, hcond.1, hcond.2⟩
        unfold PresenceList.collectInvites
        rw [if_pos hcond]
      · obtain ⟨v, hv, hvne, hvshared⟩ := h
        rcases List.mem_cons.mp hv with rfl | hvrest
        · exact absurd ⟨hvne, hvshared⟩ hcond
        · obtain ⟨w, hw, hwmem, hwne, hwsh⟩ := ih ⟨v, hvrest, hvne, hvshared⟩
          refine ⟨w, ?_, List.mem_cons_of_mem _ hwmem, hwne, hwsh⟩
          unfold PresenceList.collectInvites
          rw [if_neg hcond]
          simp only [hw]

/-- If every invitee other than the observer shares a joined room with the
observer, the invite loop succeeds and yields exactly one edge
(observer, invitee) per invitee, in order. -/
theorem collectInvites_ok_of_authorized (db : DbState) (u : UserId) (rooms : List RoomId) (lst : List UserId)
    (h : ∀ v ∈ lst, v ≠ u → RoomMembership.find_shared_rooms_by_rooms_and_uid db rooms v ≠ []) :
    PresenceList.collectInvites db u rooms lst
      = Except.ok (lst.map (fun o => { user_id := u, observed_user_id := o })) := by
  induction lst with
  | nil => rfl
  | cons observed rest ih =>
      have hcond : ¬ (observed ≠ u ∧ RoomMembership.find_shared_rooms_by_rooms_and_uid db rooms observed = []) := by
        intro hc
        exact h observed (List.mem_cons_self _ _) hc.1 hc.2
      have hrest := ih (fun v hv hne => h v (List.mem_cons_of_mem _ hv) hne)
      unfold PresenceList.collectInvites
      rw [if_neg hcond]
      simp only [hrest, List.map_cons]

/-- The only error the edge insert can produce is the unique-pair
constraint violation. -/
theorem insertEdges_error_shape (db : DbState) (rows : List PresenceListRow) (e : ApiError)
    (h : PresenceList.insertEdges db rows = Except.error e) :
    e = ApiError.conflict "duplicate key value violates unique constraint on presence_list" := by
  unfold PresenceList.insertEdges at h
  split at h
  · cases h
    rfl
  · cases h

/-- C9: when every invitee exists, an invitee other than the observer with
no shared joined room makes the whole call fail with an Unauthorized error
(for such an invitee) and the graph unchanged; and when every invitee other
than the observer shares a joined room the call never fails with an
Unauthorized error — in particular a self-invite never trips the
shared-room check. -/
theorem update_shared_room_check (db : DbState) (u : UserId) (invite drop : List UserId)
    (hmiss : User.find_missing_users db invite = []) :
    ((∃ v ∈ invite, v ≠ u ∧ RoomMembership.find_shared_rooms_by_rooms_and_uid db (RoomMembership.find_room_ids_by_uid_and_state db u "join") v = []) →
      (∃ w, PresenceList.update db u invite drop = Except.error (ApiError.unauthorized (unauthorizedInviteMessage w)) ∧
         w ∈ invite ∧ w ≠ u ∧
         RoomMembership.find_shared_rooms_by_rooms_and_uid db (RoomMembership.find_room_ids_by_uid_and_state db u "join") w = []) ∧
      PresenceList.updateApplied db u invite drop = db) ∧
    ((∀ v ∈ invite, v ≠ u → RoomMembership.find_shared_rooms_by_rooms_and_uid db (RoomMembership.find_room_ids_by_uid_and_state db u "join") v ≠ []) →
      ∀ m, PresenceList.update db u invite drop ≠ Except.error (ApiError.unauthorized m)) := by
  constructor
  · intro hex
    obtain ⟨w, hw, hwmem, hwne, hwsh⟩ :=
      collectInvites_error_of_unauthorized db u (RoomMembership.find_room_ids_by_uid_and_state db u "join") invite hex
    have hupd : PresenceList.update db u invite drop
        = Except.error (ApiError.unauthorized (unauthorizedInviteMessage w)) := by
      unfold PresenceList.update
      rw [if_neg (fun h => h hmiss)]
      simp only [hw]
    exact ⟨⟨w, hupd, hwmem, hwne, hwsh⟩, updateApplied_eq_of_error db u invite drop _ hupd⟩
  · intro hall m hupd
    have hcoll := collectInvites_ok_of_authorized db u (RoomMembership.find_room_ids_by_uid_and_state db u "join") invite hall
    unfold PresenceList.update at hupd
    rw [if_neg (fun h => h hmiss)] at hupd
    simp only [hcoll] at hupd
    cases hi : PresenceList.insertEdges db (invite.map fun o => { user_id := u, observed_user_id := o }) with
    | error e =>
        simp only [hi] at hupd
        injection hupd with he
        have hce := insertEdges_error_shape db _ e hi
        rw [he] at hce
        cases hce
    | ok dbm =>
        simp only [hi] at hupd
        by_cases hdrop : User.find_missing_users db drop ≠ []
        · rw [if_pos hdrop] at hupd
          injection hupd with he
          cases he
        · rw [if_neg hdrop] at hupd
          cases hupd

/-- Witness for C9: alice invites bob with whom no room is shared; the
call fails unauthorized and the graph is unchanged. -/
theorem update_shared_room_check_witness :
    (∃ w, PresenceList.update dbList "@alice:ruma.test" ["@bob:ruma.test"] []
        = Except.error (ApiError.unauthorized (unauthorizedInviteMessage w)) ∧
      w ∈ ["@bob:ruma.test"] ∧ w ≠ "@alice:ruma.test" ∧
      RoomMembership.find_shared_rooms_by_rooms_and_uid dbList (RoomMembership.find_room_ids_by_uid_and_state dbList "@alice:ruma.test" "join") w = []) ∧
    PresenceList.updateApplied dbList "@alice:ruma.test" ["@bob:ruma.test"] [] = dbList :=
  (update_shared_room_check dbList "@alice:ruma.test" ["@bob:ruma.test"] [] (by decide)).1
    ⟨"@bob:ruma.test", by decide, by decide, by decide⟩

/-! C10: duplicate invite hits the unique pair constraint. -/

/-- C10: when the invitees all exist and pass the shared-room check, a
re-invite of an already subscribed user makes the edge insert collide with
the unique (observer, observed) pair constraint: the whole call fails with
the storage-layer conflict error and full rollback — never a silent
no-op. -/
theorem update_duplicate_invite_fails (db : DbState) (u : UserId) (invite drop : List UserId) (v : UserId)
    (hmiss : User.find_missing_users db invite = [])
    (hauth : ∀ w ∈ invite, w ≠ u → RoomMembership.find_shared_rooms_by_rooms_and_uid db (RoomMembership.find_room_ids_by_uid_and_state db u "join") w ≠ [])
    (hv : v ∈ invite)
    (hdup : ({ user_id := u, observed_user_id := v } : PresenceListRow) ∈ db.presence_list) :
    PresenceList.update db u invite drop
      = Except.error (ApiError.conflict "duplicate key value violates unique constraint on presence_list") ∧
    PresenceList.updateApplied db u invite drop = db := by
  have hcoll := collectInvites_ok_of_authorized db u (RoomMembership.find_room_ids_by_uid_and_state db u "join") invite hauth
  have hany : (invite.map fun o => ({ user_id := u, observed_user_id := o } : PresenceListRow)).any
      (fun r => decide (r ∈ db.presence_list)) = true := by
    refine List.any_eq_true.mpr ⟨{ user_id := u, observed_user_id := v }, ?_, ?_⟩
    · exact List.mem_map_of_mem _ hv
    · exact decide_eq_true hdup
  have hins : PresenceList.insertEdges db (invite.map fun o => { user_id := u, observed_user_id := o })
      = Except.error (ApiError.conflict "duplicate key value violates unique constraint on presence_list") := by
    unfold PresenceList.insertEdges
    rw [if_pos (Or.inl hany)]
  have hupd : PresenceList.update db u invite drop
      = Except.error (ApiError.conflict "duplicate key value violates unique constraint on presence_list") := by
    unfold PresenceList.update
    rw [if_neg (fun h => h hmiss)]
    simp only [hcoll, hins]
  exact ⟨hupd, updateApplied_eq_of_error db u invite drop _ hupd⟩

/-- Witness for C10: alice re-invites herself while the self edge already
exists; the call fails with the conflict error and rolls back. -/
theorem update_duplicate_invite_fails_witness :
    PresenceList.update dbSelfEdge "@alice:ruma.test" ["@alice:ruma.test"] []
      = Except.error (ApiError.conflict "duplicate key value violates unique constraint on presence_list") ∧
    PresenceList.updateApplied dbSelfEdge "@alice:ruma.test" ["@alice:ruma.test"] [] = dbSelfEdge :=
  update_duplicate_invite_fails dbSelfEdge "@alice:ruma.test" ["@alice:ruma.test"] [] "@alice:ruma.test"
    (by decide)
    (fun w hw hne => absurd (List.mem_singleton.mp hw) hne)
    (by decide)
    (by decide)

/-! C8: the cursor returned by the sync read. -/

/-- `listMaxInt` returns `none` exactly on the empty list. -/
theorem listMaxInt_eq_none_iff (l : List Int) : listMaxInt l = none ↔ l = [] := by
  cases l with
  | nil => simp [listMaxInt]
  | cons x xs =>
      constructor
      · intro h
        unfold listMaxInt at h
        cases hm : listMaxInt xs <;> rw [hm] at h <;> cases h
      · intro h
        cases h

/-- A value returned by `listMaxInt` is a member of the list and an upper
bound of it. -/
theorem listMaxInt_spec (l : List Int) : ∀ m : Int, listMaxInt l = some m → m ∈ l ∧ ∀ x ∈ l, x ≤ m := by
  induction l with
  | nil => intro m h; cases h
  | cons x xs ih =>
      intro m h
      unfold listMaxInt at h
      cases hm : listMaxInt xs with
      | none =>
          rw [hm] at h
          injection h with h
          subst h
          have hxs : xs = [] := (listMaxInt_eq_none_iff xs).mp hm
          subst hxs
          simp
      | some m2 =>
          rw [hm] at h
          injection h with h
          subst h
          obtain ⟨hmem, hbound⟩ := ih m2 hm
          constructor
          · rcases max_choice x m2 with hx | hx <;> rw [hx]
            · exact List.mem_cons_self _ _
            · exact List.mem_cons_of_mem _ hmem
          · intro y hy
            rcases List.mem_cons.mp hy with rfl | hyx
            · exact le_max_left _ _
            · exact le_trans (hbound y hyx) (le_max_right _ _)

/-- A member that bounds the whole list is the value of `listMaxInt`. -/
theorem listMaxInt_eq_some_of_max (l : List Int) (m : Int) (hmem : m ∈ l) (hbound : ∀ x ∈ l, x ≤ m) :
    listMaxInt l = some m := by
  induction l with
  | nil => cases hmem
  | cons x xs ih =>
      unfold listMaxInt
      cases hm : listMaxInt xs with
      | none =>
          have hxs : xs = [] := (listMaxInt_eq_none_iff xs).mp hm
          subst hxs
          have : m = x := List.mem_singleton.mp hmem
          rw [this]
      | some m2 =>
          have hm2 := listMaxInt_spec xs m2 hm
          have hxle : x ≤ m := hbound x (List.mem_cons_self _ _)
          have hm2le : m2 ≤ m := hbound m2 (List.mem_cons_of_mem _ hm2.1)
          have hmax : max x m2 = m := by
            apply le_antisymm (max_le hxle hm2le)
            rcases List.mem_cons.mp hmem with rfl | hmxs
            · exact le_max_left _ _
            · exact le_trans (hm2.2 m hmxs) (le_max_right _ _)
          simp only [hmax]

/-- When every status row parses, the sync loop succeeds; the first
component is the maximum of the rows `updated_at` values and the seed, and
one event is emitted per row. -/
theorem buildEvents_ok (profiles : List Profile) (now : Int) (statuses : List PresenceStatusRow)
    (hparse : ∀ st ∈ statuses, (parsePresenceState st.presence).isSome = true) :
    ∀ acc : Int, ∃ evs : List PresenceEvent,
      PresenceList.buildEvents profiles now statuses acc
        = RunResult.ok ((match listMaxInt (statuses.map (fun st => st.updated_at)) with
                         | none => acc
                         | some m => max m acc), evs) ∧
      evs.length = statuses.length := by
  induction statuses with
  | nil => intro acc; exact ⟨[], rfl, rfl⟩
  | cons st rest ih =>
      intro acc
      obtain ⟨ps, hps⟩ := Option.isSome_iff_exists.mp (hparse st (List.mem_cons_self _ _))
      obtain ⟨evs, hevs, hlen⟩ := ih (fun s hs => hparse s (List.mem_cons_of_mem _ hs)) (max st.updated_at acc)
      refine ⟨PresenceList.mkEvent profiles now st ps :: evs, ?_, by simp [hlen]⟩
      unfold PresenceList.buildEvents
      simp only [hps, hevs]
      cases hm : listMaxInt (rest.map fun s => s.updated_at) with
      | none => simp [listMaxInt, hm]
      | some m => simp [listMaxInt, hm, max_assoc, max_comm, max_left_comm]

/-- C8: assuming every observed status row parses (no panic) and carries a
nonnegative timestamp, the sync read succeeds; its cursor equals the
maximum ordering value (the `updated_at` seconds from which each returned
entry is built, one entry per qualifying status row) and equals the -1
sentinel exactly when the returned entry list is empty. -/
theorem sync_cursor_max (db : DbState) (u : UserId) (since : Option Int) (now : Int)
    (hparse : ∀ st ∈ PresenceStatus.get_users db (PresenceList.find_observed_users db u) since, (parsePresenceState st.presence).isSome = true)
    (hnonneg : ∀ st ∈ PresenceStatus.get_users db (PresenceList.find_observed_users db u) since, 0 ≤ st.updated_at) :
    ∃ cursor events,
      PresenceList.find_events_by_uid db u since now = RunResult.ok (cursor, events) ∧
      events.length = (PresenceStatus.get_users db (PresenceList.find_observed_users db u) since).length ∧
      (events = [] ↔ cursor = -1) ∧
      (events ≠ [] →
        listMaxInt ((PresenceStatus.get_users db (PresenceList.find_observed_users db u) since).map (fun st => st.updated_at)) = some cursor) := by
  obtain ⟨evs, hev, hlen⟩ := buildEvents_ok
    (Profile.get_profiles db (PresenceList.find_observed_users db u)) now
    (PresenceStatus.get_users db (PresenceList.find_observed_users db u) since) hparse (-1)
  refine ⟨_, evs, hev, hlen, ?_, ?_⟩
  · cases hm : listMaxInt ((PresenceStatus.get_users db (PresenceList.find_observed_users db u) since).map (fun st => st.updated_at)) with
    | none =>
        have hnil : PresenceStatus.get_users db (PresenceList.find_observed_users db u) since = [] :=
          List.map_eq_nil_iff.mp ((listMaxInt_eq_none_iff _).mp hm)
        have hevnil : evs = [] := List.length_eq_zero.mp (by rw [hlen, hnil]; rfl)
        simp [hm, hevnil]
    | some m =>
        obtain ⟨hmem, _⟩ := listMaxInt_spec _ m hm
        obtain ⟨st, hst, hstm⟩ := List.mem_map.mp hmem
        have hmnn : 0 ≤ m := hstm ▸ hnonneg st hst
        have hne : evs ≠ [] := by
          intro hevnil
          rw [hevnil] at hlen
          have : PresenceStatus.get_users db (PresenceList.find_observed_users db u) since = [] :=
            List.length_eq_zero.mp hlen.symm
          rw [this] at hm
          cases hm
        simp only [hm]
        constructor
        · intro hevnil
          exact absurd hevnil hne
        · intro hc
          have : m ⊔ (-1 : Int) = m := max_eq_left (by linarith)
          rw [this] at hc
          omega
  · intro hne
    cases hm : listMaxInt ((PresenceStatus.get_users db (PresenceList.find_observed_users db u) since).map (fun st => st.updated_at)) with
    | none =>
        have hnil : PresenceStatus.get_users db (PresenceList.find_observed_users db u) since = [] :=
          List.map_eq_nil_iff.mp ((listMaxInt_eq_none_iff _).mp hm)
        have hevnil : evs = [] := List.length_eq_zero.mp (by rw [hlen, hnil]; rfl)
        exact absurd hevnil hne
    | some m =>
        obtain ⟨hmem, _⟩ := listMaxInt_spec _ m hm
        obtain ⟨st, hst, hstm⟩ := List.mem_map.mp hmem
        have hmnn : 0 ≤ m := hstm ▸ hnonneg st hst
        simp only [hm]
        rw [max_eq_left (by linarith : (-1 : Int) ≤ m)]

/-- Witness for C8 at a concrete input: alice observing bob who is online
since second 3. -/
theorem sync_cursor_max_witness :
    ∃ cursor events,
      PresenceList.find_events_by_uid dbList "@alice:ruma.test" none 10 = RunResult.ok (cursor, events) ∧
      events.length = (PresenceStatus.get_users dbList (PresenceList.find_observed_users dbList "@alice:ruma.test") none).length ∧
      (events = [] ↔ cursor = -1) ∧
      (events ≠ [] →
        listMaxInt ((PresenceStatus.get_users dbList (PresenceList.find_observed_users dbList "@alice:ruma.test") none).map (fun st => st.updated_at)) = some cursor) :=
  sync_cursor_max dbList "@alice:ruma.test" none 10 (by decide) (by decide)

/-! C2: the latest-per-user query of the presence_events table. -/

/-- An ordering value is produced by the grouped-max subquery exactly when
it is the ordering of a row dominating all rows of the same user. -/
theorem groupMaxOrderings_mem_iff (rows : List PresenceEventsRow) (o : Int) :
    o ∈ PresenceStreamEvent.groupMaxOrderings rows ↔
      ∃ r ∈ rows, r.ordering = o ∧ ∀ r2 ∈ rows, r2.user_id = r.user_id → r2.ordering ≤ o := by
  unfold PresenceStreamEvent.groupMaxOrderings
  constructor
  · intro h
    obtain ⟨uid, hud, hf⟩ := List.mem_filterMap.mp h
    obtain ⟨hmem, hbound⟩ := listMaxInt_spec _ o hf
    obtain ⟨r, hr, hro⟩ := List.mem_map.mp hmem
    have hrmem := (List.mem_filter.mp hr).1
    have hruid : r.user_id = uid := of_decide_eq_true (List.mem_filter.mp hr).2
    refine ⟨r, hrmem, hro, ?_⟩
    intro r2 hr2 hr2uid
    apply hbound
    exact List.mem_map.mpr ⟨r2, List.mem_filter.mpr ⟨hr2, decide_eq_true (hr2uid.trans hruid)⟩, rfl⟩
  · rintro ⟨r, hr, rfl, hmax⟩
    apply List.mem_filterMap.mpr
    refine ⟨r.user_id, List.mem_dedup.mpr (List.mem_map_of_mem _ hr), ?_⟩
    apply listMaxInt_eq_some_of_max
    · exact List.mem_map.mpr ⟨r, List.mem_filter.mpr ⟨hr, decide_eq_true rfl⟩, rfl⟩
    · intro x hx
      obtain ⟨r2, hr2, hr2x⟩ := List.mem_map.mp hx
      have hr2mem := (List.mem_filter.mp hr2).1
      have hr2uid : r2.user_id = r.user_id := of_decide_eq_true (List.mem_filter.mp hr2).2
      exact hr2x ▸ hmax r2 hr2mem hr2uid

/-- Every qualifying row is a row of the presence_events table. -/
theorem qualifying_subset (db : DbState) (u : UserId) (since : Option Int) :
    ∀ x ∈ PresenceStreamEvent.qualifying db u since, x ∈ db.presence_events := by
  intro x hx
  unfold PresenceStreamEvent.qualifying at hx
  cases since with
  | none => exact (List.mem_filter.mp hx).1
  | some s => exact (List.mem_filter.mp hx).1

/-- With globally unique orderings, the rows returned by the latest-per-user
query are exactly the qualifying rows dominating every qualifying row of
the same user. -/
theorem find_events_mem_iff (db : DbState) (u : UserId) (since : Option Int) (e : PresenceEventsRow)
    (hnodup : (db.presence_events.map (fun r => r.ordering)).Nodup) :
    e ∈ PresenceStreamEvent.find_events_by_uid db u since ↔
      (e ∈ PresenceStreamEvent.qualifying db u since ∧
       ∀ e2 ∈ PresenceStreamEvent.qualifying db u since, e2.user_id = e.user_id → e2.ordering ≤ e.ordering) := by
  unfold PresenceStreamEvent.find_events_by_uid
  constructor
  · intro h
    have hmem := (List.mem_filter.mp h).1
    have ho : e.ordering ∈ PresenceStreamEvent.groupMaxOrderings (PresenceStreamEvent.qualifying db u since) :=
      of_decide_eq_true (List.mem_filter.mp h).2
    obtain ⟨r, hr, hro, hmax⟩ := (groupMaxOrderings_mem_iff _ _).mp ho
    have hre : r = e := List.inj_on_of_nodup_map hnodup (qualifying_subset db u since r hr) hmem hro
    subst hre
    exact ⟨hr, hmax⟩
  · rintro ⟨hq, hmax⟩
    apply List.mem_filter.mpr
    refine ⟨qualifying_subset db u since e hq, decide_eq_true ?_⟩
    exact (groupMaxOrderings_mem_iff _ _).mpr ⟨e, hq, rfl, hmax⟩

/-- A duplicate-free list whose elements are pairwise equal has at most one
element. -/
theorem length_le_one_of_nodup_all_eq {α : Type} (l : List α) (hnd : l.Nodup) (hall : ∀ a ∈ l, ∀ b ∈ l, a = b) :
    l.length ≤ 1 := by
  cases l with
  | nil => simp
  | cons a t =>
      cases t with
      | nil => simp
      | cons b t2 =>
          exfalso
          have hab : a = b := hall a (by simp) b (by simp)
          rw [List.nodup_cons] at hnd
          exact hnd.1 (hab ▸ List.mem_cons_self b t2)

/-- C2: with globally unique orderings (the serial column invariant), the
latest-per-user query returns at most one row per user; a row is returned
exactly when it qualifies (its user is observed and, with a cursor, its
ordering strictly exceeds it) and dominates every qualifying row of its
user — so a user with no qualifying rows contributes nothing, and the
query is total (a list, never an error). -/
theorem latest_per_user_query (db : DbState) (u : UserId) (since : Option Int)
    (hnodup : (db.presence_events.map (fun r => r.ordering)).Nodup) :
    (∀ v : UserId,
      ((PresenceStreamEvent.find_events_by_uid db u since).filter (fun e => decide (e.user_id = v))).length ≤ 1) ∧
    (∀ e, e ∈ PresenceStreamEvent.find_events_by_uid db u since ↔
      (e ∈ PresenceStreamEvent.qualifying db u since ∧
       ∀ e2 ∈ PresenceStreamEvent.qualifying db u since, e2.user_id = e.user_id → e2.ordering ≤ e.ordering)) ∧
    (∀ s, since = some s → ∀ e ∈ PresenceStreamEvent.find_events_by_uid db u since, e.ordering > s) := by
  have hiff := fun e => find_events_mem_iff db u since e hnodup
  have hsubres : ∀ x, x ∈ PresenceStreamEvent.find_events_by_uid db u since → x ∈ db.presence_events := by
    intro x hx
    unfold PresenceStreamEvent.find_events_by_uid at hx
    exact (List.mem_filter.mp hx).1
  refine ⟨?_, hiff, ?_⟩
  · intro v
    have hres_nodup : (PresenceStreamEvent.find_events_by_uid db u since).Nodup := by
      unfold PresenceStreamEvent.find_events_by_uid
      exact (List.Nodup.of_map _ hnodup).filter _
    refine length_le_one_of_nodup_all_eq _ (hres_nodup.filter _) ?_
    intro a ha b hb
    have ha2 := List.mem_filter.mp ha
    have hb2 := List.mem_filter.mp hb
    have hav : a.user_id = v := of_decide_eq_true ha2.2
    have hbv : b.user_id = v := of_decide_eq_true hb2.2
    obtain ⟨haq, hamax⟩ := (hiff a).mp ha2.1
    obtain ⟨hbq, hbmax⟩ := (hiff b).mp hb2.1
    have h1 : a.ordering ≤ b.ordering := hbmax a haq (hav.trans hbv.symm)
    have h2 : b.ordering ≤ a.ordering := hamax b hbq (hbv.trans hav.symm)
    exact List.inj_on_of_nodup_map hnodup (hsubres a ha2.1) (hsubres b hb2.1) (le_antisymm h1 h2)
  · intro s hs e he
    obtain ⟨hq, _⟩ := (hiff e).mp he
    subst hs
    unfold PresenceStreamEvent.qualifying at hq
    have hcond := (List.mem_filter.mp hq).2
    rw [Bool.and_eq_true] at hcond
    exact of_decide_eq_true hcond.2

/-- Witness for C2 at a concrete input: alice syncing over a two-entry log
for bob with cursor 0 gets at most one row for bob. -/
theorem latest_per_user_query_witness :
    ((PresenceStreamEvent.find_events_by_uid dbEvents "@alice:ruma.test" (some 0)).filter (fun e => decide (e.user_id = "@bob:ruma.test"))).length ≤ 1 :=
  (latest_per_user_query dbEvents "@alice:ruma.test" (some 0) (by decide)).1 "@bob:ruma.test"
